import Mathlib

/-!
Verification of the data-health checking engine of `scripts/check_data_health.py`
(`DataHealthChecker`).  The pandas data model is shallowly embedded:

* a cell of a column is `Option ℚ` (`none` models a null/NaN cell);
* a `DF` (one instrument's table) is a date index (dates encoded as natural
  numbers `yyyymmdd`, so that the numeric order coincides with chronological
  order) together with an ordered association list of named columns;
* a dataset (`self.data`, a dict from instrument key to table) is an ordered
  association list `List (String × DF)`;
* a check that can raise a Python exception (`KeyError` from indexing an absent
  column, `ValueError` from building a `pd.DataFrame` out of lists of unequal
  length) returns `Except String _`; a check that cannot raise returns the
  report directly;
* the report of a check is `Option (List row)`: `none` models the `None`
  returned when the result frame is empty, `some rows` the returned frame.
-/

/-- One cell of a pandas column: `none` is a null/NaN entry. -/
abbrev Cell := Option ℚ

/-- One instrument's table: a date index (level 1 of a MultiIndex in qlib mode)
and named columns.  A column need not be present, and in a well-formed frame
every column has the same length as the index. -/
structure DF where
  index : List Nat
  cols : List (String × List Cell)
deriving DecidableEq, Repr

/-- The list of column names, `df.columns`. -/
def DF.columns (df : DF) : List String := df.cols.map Prod.fst

/-- Column lookup `df[c]`, `none` when the column is absent (pandas raises
`KeyError` there; callers turn `none` into `Except.error`). -/
def DF.getCol (df : DF) (c : String) : Option (List Cell) :=
  (df.cols.find? (fun p => p.1 == c)).map Prod.snd

/-- The number of null cells of a column, `df[c].isnull().sum()`. -/
def countNulls (xs : List Cell) : Nat := (xs.filter Option.isNone).length

/-- `self.data`: the dict from instrument key (file name) to its table. -/
abbrev Dataset := List (String × DF)

/-- The shared filtering step of every check:
`{k: v for k, v in self.data.items() if k in instruments}` when an instrument
filter is given, the full dict otherwise. -/
def filterScope (data : Dataset) (instruments : Option (List String)) : Dataset :=
  match instruments with
  | none => data
  | some l => data.filter (fun p => l.contains p.1)

/-- The per-column null counts `df.isnull().sum()` over all columns. -/
def isnullSums (df : DF) : List (String × Nat) :=
  df.cols.map (fun p => (p.1, countNulls p.2))

/-- `df.isnull().sum()[c]`: `none` models the `KeyError` on an absent column. -/
def lookupNulls (df : DF) (c : String) : Option Nat :=
  (df.getCol c).map countNulls

/-- One row of the report of `check_missing_data`: the instrument key and the
null counts of the five required columns. -/
structure MissingRow where
  instrument : String
  openN : Nat
  highN : Nat
  lowN : Nat
  closeN : Nat
  volumeN : Nat
deriving DecidableEq, Repr

/-- The body of the `check_missing_data` loop for one instrument: the columns
whose null count exceeds `missing_data_num` (over ALL columns of the table),
and if any, a row of the five required columns' null counts — looked up
unguardedly, so an absent required column is a `KeyError`. -/
def missingRowFor (num : Nat) (k : String) (df : DF) :
    Except String (Option MissingRow) :=
  let missingCols := (isnullSums df).filter (fun p => num < p.2)
  if missingCols.isEmpty then .ok none
  else
    match lookupNulls df "open", lookupNulls df "high", lookupNulls df "low",
        lookupNulls df "close", lookupNulls df "volume" with
    | some o, some h, some l, some c, some v => .ok (some ⟨k, o, h, l, c, v⟩)
    | _, _, _, _, _ => .error "KeyError"

/-- The `check_missing_data` loop over the (filtered) dict, in iteration
order; a `KeyError` aborts the loop as the exception does. -/
def missingRows (num : Nat) : Dataset → Except String (List MissingRow)
  | [] => .ok []
  | (k, df) :: rest =>
    match missingRowFor num k df with
    | .error e => .error e
    | .ok none => missingRows num rest
    | .ok (some r) => (missingRows num rest).map (fun rs => r :: rs)

/-- `DataHealthChecker.check_missing_data(instruments)` with tolerance
`missing_data_num = num`: `ok none` models returning `None` (empty frame),
`ok (some rows)` the returned report frame. -/
def check_missing_data (data : Dataset) (instruments : Option (List String))
    (num : Nat) : Except String (Option (List MissingRow)) :=
  (missingRows num (filterScope data instruments)).map
    (fun rows => if rows.isEmpty then none else some rows)

/-- The value of one entry of `df[col].pct_change(fill_method=None).abs()`
that is not NaN: a finite rational, or `inf` (float infinity, produced by a
nonzero numerator over a zero previous value). -/
inductive StepVal where
  | fin (q : ℚ)
  | inf
deriving DecidableEq, Repr

/-- Whether a step value strictly exceeds a finite threshold (float `inf`
exceeds every threshold, as in IEEE comparison). -/
def StepVal.exceeds (v : StepVal) (t : ℚ) : Bool :=
  match v with
  | .inf => true
  | .fin q => t < q

/-- Float `max` of two non-NaN step values. -/
def stepMax (a b : StepVal) : StepVal :=
  match a, b with
  | .inf, _ => .inf
  | _, .inf => .inf
  | .fin p, .fin q => .fin (max p q)

/-- One entry of `df[col].pct_change(fill_method=None).abs()` given the
previous and current cells: NaN (`none`) when either cell is null or on the
0/0 case; `inf` on division of a nonzero numerator by zero; otherwise
`|(cur - prev) / prev|`. -/
def absChange (prev cur : Cell) : Option StepVal :=
  match prev, cur with
  | some p, some c =>
    if p = 0 then (if c = 0 then none else some .inf)
    else some (.fin (|c - p| / |p|))
  | _, _ => none

/-- The series `df[col].pct_change(fill_method=None).abs()`: entry 0 is NaN,
entry `t` is the absolute fractional change from row `t-1` to row `t`. -/
def pctChanges : List Cell → List (Option StepVal)
  | [] => []
  | x :: xs => none :: List.zipWith absChange (x :: xs) xs

/-- The float `max` of a series, skipping NaN entries (`Series.max` with the
default `skipna=True`); `none` when every entry is NaN. -/
def seriesMax (l : List (Option StepVal)) : Option StepVal :=
  match l.filterMap id with
  | [] => none
  | v :: vs => some (vs.foldl stepMax v)

/-- The five required OHLCV column names. -/
def requiredColumns : List String := ["open", "high", "low", "close", "volume"]

/-- The threshold that applies to a column: `large_step_threshold_volume` for
`volume`, `large_step_threshold_price` for the others. -/
def thresholdFor (pThr vThr : ℚ) (col : String) : ℚ :=
  if col = "volume" then vThr else pThr

/-- Whether one entry of the change series strictly exceeds the threshold
(a NaN entry does not: `NaN > t` is false). -/
def optExceeds (t : ℚ) (o : Option StepVal) : Bool :=
  match o with
  | some v => v.exceeds t
  | none => false

/-- The position of the first entry of the change series that strictly exceeds
the threshold; this is the row whose index entry supplies the reported date
(`large_steps.index.to_list()[0][1]`). -/
def firstExceedIdx (ch : List (Option StepVal)) (t : ℚ) : Nat :=
  ch.findIdx (optExceeds t)

/-- One row of the report of `check_large_step_changes`. -/
structure StepRow where
  instrument : String
  colName : String
  date : Nat
  pctChange : StepVal
deriving DecidableEq, Repr

/-- The row `check_large_step_changes` produces for one instrument and one
column: present exactly when the column is present and its maximal absolute
change strictly exceeds the applicable threshold, dated at the first exceeding
entry and carrying `pct_change.max()`. -/
def stepRowForCol (pThr vThr : ℚ) (k : String) (df : DF) (col : String) :
    Option StepRow :=
  match df.getCol col with
  | none => none
  | some xs =>
    let thr := thresholdFor pThr vThr col
    match seriesMax (pctChanges xs) with
    | none => none
    | some m =>
      if m.exceeds thr then
        some ⟨k, col, (df.index.getD (firstExceedIdx (pctChanges xs) thr) 0), m⟩
      else none

/-- The rows `check_large_step_changes` produces for one instrument: one row
per present OHLCV column whose maximal absolute change strictly exceeds its
threshold. -/
def stepRowsFor (pThr vThr : ℚ) (k : String) (df : DF) : List StepRow :=
  requiredColumns.filterMap (stepRowForCol pThr vThr k df)

/-- `DataHealthChecker.check_large_step_changes(instruments)` with price and
volume thresholds; total, since every access it makes is guarded. -/
def check_large_step_changes (data : Dataset) (instruments : Option (List String))
    (pThr vThr : ℚ) : Option (List StepRow) :=
  let rows := (filterScope data instruments).flatMap (fun p => stepRowsFor pThr vThr p.1 p.2)
  if rows.isEmpty then none else some rows

/-- One row of the report of `check_required_columns`. -/
structure ReqRow where
  instrument : String
  missingCol : String
deriving DecidableEq, Repr

/-- The two accumulated lists of `check_required_columns`: per flagged
instrument the key is appended ONCE to `instruments` while `missing_col` is
extended with ALL of the instrument's missing columns. -/
def reqColsAccum (scope : Dataset) : List String × List String :=
  scope.foldl
    (fun acc p =>
      let missing := requiredColumns.filter (fun c => ¬ p.2.columns.contains c)
      if missing.isEmpty then acc else (acc.1 ++ [p.1], acc.2 ++ missing))
    ([], [])

/-- `DataHealthChecker.check_required_columns(instruments)`: the final
`pd.DataFrame(result_dict)` requires the two lists to have equal length and
pairs them positionally; unequal lengths raise `ValueError`. -/
def check_required_columns (data : Dataset) (instruments : Option (List String)) :
    Except String (Option (List ReqRow)) :=
  let acc := reqColsAccum (filterScope data instruments)
  if acc.1.length = acc.2.length then
    let rows := (acc.1.zip acc.2).map (fun p => ReqRow.mk p.1 p.2)
    .ok (if rows.isEmpty then none else some rows)
  else .error "ValueError: All arrays must be of the same length"

/-- Whether `needle` occurs as a prefix of `hay` (on character lists). -/
def prefixAt (needle hay : List Char) : Bool :=
  match needle, hay with
  | [], _ => true
  | _ :: _, [] => false
  | a :: as, b :: bs => a == b && prefixAt as bs

/-- Whether `needle` occurs as a contiguous substring of `hay`. -/
def containsSub (needle : List Char) : List Char → Bool
  | [] => needle.isEmpty
  | b :: bs => prefixAt needle (b :: bs) || containsSub needle bs

/-- Python's `needle in hay` on strings: substring containment. -/
def strContains (hay needle : String) : Bool :=
  containsSub needle.toList hay.toList

/-- The hardcoded exemption of `check_missing_factor`:
`"000300" in filename or "000903" in filename or "000905" in filename`. -/
def excludedFactorKey (k : String) : Bool :=
  strContains k "000300" || strContains k "000903" || strContains k "000905"

/-- The three accumulated lists of `check_missing_factor`'s `result_dict`. -/
structure FactorAccum where
  insts : List String
  colFlags : List Bool
  dataFlags : List Bool
deriving DecidableEq, Repr

/-- The body of the `check_missing_factor` loop for one instrument.  Excluded
keys are skipped before anything else.  A missing `factor` column first appends
`missing_factor_col = True`, and then the unguarded `df["factor"].isnull().all()`
raises `KeyError`.  With the column present, an all-null column appends a row
(`missing_factor_data = True`, and `missing_factor_col = False` when the key was
not already appended). -/
def factorStep (acc : FactorAccum) (k : String) (df : DF) :
    Except String FactorAccum :=
  if excludedFactorKey k then .ok acc
  else
    let acc1 : FactorAccum :=
      if df.columns.contains "factor" then acc
      else ⟨acc.insts ++ [k], acc.colFlags ++ [true], acc.dataFlags⟩
    match df.getCol "factor" with
    | none => .error "KeyError: factor"
    | some xs =>
      if xs.all Option.isNone then
        if acc1.insts.contains k then
          .ok ⟨acc1.insts, acc1.colFlags, acc1.dataFlags ++ [true]⟩
        else
          .ok ⟨acc1.insts ++ [k], acc1.colFlags ++ [false], acc1.dataFlags ++ [true]⟩
      else .ok acc1

/-- The `check_missing_factor` loop over the (filtered) dict. -/
def factorAccum (acc : FactorAccum) : Dataset → Except String FactorAccum
  | [] => .ok acc
  | (k, df) :: rest =>
    match factorStep acc k df with
    | .error e => .error e
    | .ok acc2 => factorAccum acc2 rest

/-- One row of the report of `check_missing_factor`. -/
structure FactorRow where
  instrument : String
  missingFactorCol : Bool
  missingFactorData : Bool
deriving DecidableEq, Repr

/-- Positional pairing of the three lists of `result_dict` into rows. -/
def factorZip : List String → List Bool → List Bool → List FactorRow
  | k :: ks, c :: cs, d :: ds => FactorRow.mk k c d :: factorZip ks cs ds
  | _, _, _ => []

/-- `DataHealthChecker.check_missing_factor(instruments)`: the final
`pd.DataFrame(result_dict)` raises `ValueError` unless the three accumulated
lists have equal length. -/
def check_missing_factor (data : Dataset) (instruments : Option (List String)) :
    Except String (Option (List FactorRow)) :=
  match factorAccum ⟨[], [], []⟩ (filterScope data instruments) with
  | .error e => .error e
  | .ok acc =>
    if acc.insts.length = acc.colFlags.length ∧
        acc.insts.length = acc.dataFlags.length then
      let rows := factorZip acc.insts acc.colFlags acc.dataFlags
      .ok (if rows.isEmpty then none else some rows)
    else .error "ValueError: All arrays must be of the same length"

/-- Zero-padding of a natural number to two digits. -/
def pad2 (n : Nat) : String :=
  if n < 10 then "0" ++ toString n else toString n

/-- Zero-padding of a natural number to four digits. -/
def pad4 (n : Nat) : String :=
  if n < 10 then "000" ++ toString n
  else if n < 100 then "00" ++ toString n
  else if n < 1000 then "0" ++ toString n
  else toString n

/-- `d.strftime("%Y-%m-%d")` on a date encoded as the natural number
`yyyymmdd`. -/
def isoFormat (d : Nat) : String :=
  pad4 (d / 10000) ++ "-" ++ pad2 (d % 10000 / 100) ++ "-" ++ pad2 (d % 100)

/-- Python's `sorted` on dates, modelled by insertion sort (stable, ascending). -/
def sortedDates (l : List Nat) : List Nat :=
  l.insertionSort (· ≤ ·)

/-- The coverage quantity
`(len(trading_days) - len(missing_dates)) / len(trading_days) * 100`. -/
def coveragePct (calLen missingLen : Nat) : ℚ :=
  ((calLen : ℚ) - (missingLen : ℚ)) / (calLen : ℚ) * 100

/-- `f"{x:.2f}%"` on a nonnegative rational: the value rounded to hundredths
(ties away from zero) printed with exactly two decimal digits and a percent
sign. -/
def formatPct2 (q : ℚ) : String :=
  let c : ℤ := ⌊q * 100 + 1 / 2⌋
  toString (c.toNat / 100) ++ "." ++ pad2 (c.toNat % 100) ++ "%"

/-- The dates of one table: level 1 of the MultiIndex in qlib mode, the plain
index otherwise — `DF.index` holds exactly that level in this model. -/
def DF.dates (df : DF) : List Nat := df.index

/-- The fallback calendar: `sorted(list(all_dates))` where `all_dates` is the
union of the dates of every table in the (filtered) scope. -/
def unionDates (scope : Dataset) : List Nat :=
  sortedDates ((scope.flatMap (fun p => p.2.dates)).dedup)

/-- Step 1 of `check_missing_trading_days`: the resolved trading calendar.
`res = some days` models a readable calendar resource (`calendars/{freq}.txt`);
`res = none` models every failure path (file absent or unreadable), where the
code logs a warning and derives the calendar as the sorted union of the scope's
dates, returning `None` early when that union is empty. -/
def resolveCal (scope : Dataset) (res : Option (List Nat)) : Option (List Nat) :=
  match res with
  | some days => some days
  | none =>
    let u := unionDates scope
    if u.isEmpty then none else some u

/-- One row of the report of `check_missing_trading_days`. -/
structure TradeRow where
  instrument : String
  missingTradingDays : List String
  totalMissingDays : Nat
  covPct : String
deriving DecidableEq, Repr

/-- The distinct calendar dates absent from a table:
`set(trading_days) - stock_dates`, listed in calendar order. -/
def missingDatesOf (cal : List Nat) (df : DF) : List Nat :=
  cal.dedup.filter (fun d => ¬ df.dates.contains d)

/-- The body of the per-instrument loop of `check_missing_trading_days`: a row
with the first 5 missing dates (ascending, ISO-formatted), the count of missing
dates, and the formatted coverage percentage — or no row when nothing is
missing. -/
def tradingRowFor (cal : List Nat) (k : String) (df : DF) : Option TradeRow :=
  let missing := missingDatesOf cal df
  if missing.isEmpty then none
  else
    some ⟨k, ((sortedDates missing).take 5).map isoFormat, missing.length,
      formatPct2 (coveragePct cal.length missing.length)⟩

/-- `DataHealthChecker.check_missing_trading_days(instruments)`, with the
calendar resource made explicit (`res`): `None` on an empty scope, on failed
resolution (fallback with no dates at all), or when no instrument misses a
date. -/
def check_missing_trading_days (data : Dataset) (instruments : Option (List String))
    (res : Option (List Nat)) : Option (List TradeRow) :=
  let scope := filterScope data instruments
  if scope.isEmpty then none
  else
    match resolveCal scope res with
    | none => none
    | some cal =>
      let rows := scope.filterMap (fun p => tradingRowFor cal p.1 p.2)
      if rows.isEmpty then none else some rows

/-- The method `check_missing_data` as a transition on the object state
(`self.data`): the body only ever reads `self.data`, so the translated
transition returns the state unchanged alongside the report. -/
def runMissingData (s : Dataset) (instruments : Option (List String)) (num : Nat) :
    Except String (Option (List MissingRow)) × Dataset :=
  (check_missing_data s instruments num, s)

/-- The method `check_large_step_changes` as a state transition; the body only
reads `self.data`. -/
def runLargeStepChanges (s : Dataset) (instruments : Option (List String))
    (pThr vThr : ℚ) : Option (List StepRow) × Dataset :=
  (check_large_step_changes s instruments pThr vThr, s)

/-- The method `check_required_columns` as a state transition; the body only
reads `self.data`. -/
def runRequiredColumns (s : Dataset) (instruments : Option (List String)) :
    Except String (Option (List ReqRow)) × Dataset :=
  (check_required_columns s instruments, s)

/-- The method `check_missing_factor` as a state transition; the body only
reads `self.data`. -/
def runMissingFactor (s : Dataset) (instruments : Option (List String)) :
    Except String (Option (List FactorRow)) × Dataset :=
  (check_missing_factor s instruments, s)

/-- The method `check_missing_trading_days` as a state transition; the body
only reads `self.data`. -/
def runMissingTradingDays (s : Dataset) (instruments : Option (List String))
    (res : Option (List Nat)) : Option (List TradeRow) × Dataset :=
  (check_missing_trading_days s instruments res, s)

/-- A table with all five required columns free of nulls but a null in its
`factor` column. -/
def dfFactorGap : DF :=
  ⟨[1, 2], [("open", [some 1, some 2]), ("high", [some 1, some 2]),
    ("low", [some 1, some 2]), ("close", [some 1, some 2]),
    ("volume", [some 1, some 2]), ("factor", [none, some 1])]⟩

/-- A table having only a `close` column (four required columns missing, no
`factor` column). -/
def dfOnlyClose : DF := ⟨[1], [("close", [some 1])]⟩

/-- Scenario B: close prices 100, 100, 160 over three dated rows. -/
def dfScenB : DF :=
  ⟨[20240101, 20240102, 20240103],
    [("close", [some 100, some 100, some 160])]⟩

/-- Scenario D: instrument `W` with data on the first 8 of 10 calendar days. -/
def dfScenD : DF :=
  ⟨[20240101, 20240102, 20240103, 20240104, 20240105, 20240106, 20240107,
    20240108], [("close", List.replicate 8 (some 1))]⟩

/-- Scenario D's ten-day calendar. -/
def calScenD : List Nat :=
  [20240101, 20240102, 20240103, 20240104, 20240105, 20240106, 20240107,
   20240108, 20240109, 20240110]

/-- A table whose `factor` column is present and entirely null. -/
def dfFactorAllNull : DF :=
  ⟨[1], [("open", [some 1]), ("high", [some 1]), ("low", [some 1]),
    ("close", [some 1]), ("volume", [some 1]), ("factor", [none])]⟩

/-- A complete table: the five required columns and `factor`, no nulls. -/
def dfClean : DF :=
  ⟨[1, 2], [("open", [some 1, some 2]), ("high", [some 1, some 2]),
    ("low", [some 1, some 2]), ("close", [some 1, some 2]),
    ("volume", [some 1, some 2]), ("factor", [some 1, some 1])]⟩

/-- A table with no rows at all: its date index is empty. -/
def dfEmptyIdx : DF := ⟨[], [("close", [])]⟩

/-- Scenario D's instrument with full coverage: data on all ten calendar
days. -/
def dfScenDFull : DF :=
  ⟨[20240101, 20240102, 20240103, 20240104, 20240105, 20240106, 20240107,
    20240108, 20240109, 20240110], [("close", List.replicate 10 (some 1))]⟩

/-- A present report is exactly a non-empty row list, given the shared final
step `if result_df.empty: return None else: return result_df`. -/
theorem ifEmpty_eq_some {α : Type} {rows report : List α}
    (h : (if rows.isEmpty then (none : Option (List α)) else some rows) = some report) :
    report = rows ∧ rows ≠ [] := by
  by_cases he : rows.isEmpty
  · simp [he] at h
  · simp [he] at h
    exact ⟨h.symm, by simpa using he⟩

/-- C2: `check_required_columns` on an instrument that lacks several required
columns does not produce a row listing them: appending the key once but all
missing columns to `result_dict` makes `pd.DataFrame` raise `ValueError`.  The
table here lacks four of the five required columns. -/
theorem c2_multi_missing_columns_raise :
    dfOnlyClose.columns.contains "open" = false ∧
    dfOnlyClose.columns.contains "high" = false ∧
    check_required_columns [("A", dfOnlyClose)] none =
      .error "ValueError: All arrays must be of the same length" :=
  ⟨rfl, rfl, rfl⟩

/-- C3: `check_missing_factor` on a non-excluded instrument with no `factor`
column raises `KeyError` at the unguarded `df["factor"].isnull().all()` instead
of returning a `missing_factor_col = true` row. -/
theorem c3_missing_factor_col_raises :
    excludedFactorKey "Z" = false ∧
    dfOnlyClose.columns.contains "factor" = false ∧
    check_missing_factor [("Z", dfOnlyClose)] none = .error "KeyError: factor" :=
  ⟨rfl, rfl, rfl⟩

/-- C10: no check mutates the dataset and every check is idempotent: each
method, read as a transition on the object state `self.data`, returns the
state unchanged, and a second invocation on that state returns the identical
report. -/
theorem c10_checks_pure (s : Dataset) (filt : Option (List String)) (num : Nat)
    (pThr vThr : ℚ) (res : Option (List Nat)) :
    ((runMissingData s filt num).2 = s ∧
      (runMissingData (runMissingData s filt num).2 filt num).1 =
        (runMissingData s filt num).1) ∧
    ((runLargeStepChanges s filt pThr vThr).2 = s ∧
      (runLargeStepChanges (runLargeStepChanges s filt pThr vThr).2 filt pThr vThr).1 =
        (runLargeStepChanges s filt pThr vThr).1) ∧
    ((runRequiredColumns s filt).2 = s ∧
      (runRequiredColumns (runRequiredColumns s filt).2 filt).1 =
        (runRequiredColumns s filt).1) ∧
    ((runMissingFactor s filt).2 = s ∧
      (runMissingFactor (runMissingFactor s filt).2 filt).1 =
        (runMissingFactor s filt).1) ∧
    ((runMissingTradingDays s filt res).2 = s ∧
      (runMissingTradingDays (runMissingTradingDays s filt res).2 filt res).1 =
        (runMissingTradingDays s filt res).1) :=
  ⟨⟨rfl, rfl⟩, ⟨rfl, rfl⟩, ⟨rfl, rfl⟩, ⟨rfl, rfl⟩, ⟨rfl, rfl⟩⟩

/-- A present report is non-empty, given the shared final step
`if result_df.empty: return None else: return result_df`. -/
theorem ifEmpty_some_ne_nil {α : Type} {rows report : List α}
    (h : (if rows.isEmpty then (none : Option (List α)) else some rows) = some report) :
    report ≠ [] := by
  obtain ⟨he, hne⟩ := ifEmpty_eq_some h
  exact he ▸ hne

/-- C9: every check returns either `None` or a non-empty report: whenever one
of the five checks returns a present report table, that table has at least one
row. -/
theorem c9_reports_nonempty :
    (∀ (data : Dataset) (filt : Option (List String)) (num : Nat)
        (report : List MissingRow),
        check_missing_data data filt num = .ok (some report) → report ≠ []) ∧
    (∀ (data : Dataset) (filt : Option (List String)) (pThr vThr : ℚ)
        (report : List StepRow),
        check_large_step_changes data filt pThr vThr = some report → report ≠ []) ∧
    (∀ (data : Dataset) (filt : Option (List String)) (report : List ReqRow),
        check_required_columns data filt = .ok (some report) → report ≠ []) ∧
    (∀ (data : Dataset) (filt : Option (List String)) (report : List FactorRow),
        check_missing_factor data filt = .ok (some report) → report ≠ []) ∧
    (∀ (data : Dataset) (filt : Option (List String)) (res : Option (List Nat))
        (report : List TradeRow),
        check_missing_trading_days data filt res = some report → report ≠ []) := by
  refine ⟨?_, ?_, ?_, ?_, ?_⟩
  · intro data filt num report h
    unfold check_missing_data at h
    cases h' : missingRows num (filterScope data filt) with
    | error e => rw [h'] at h; simp [Except.map] at h
    | ok rows =>
      rw [h'] at h
      have h2 : (if rows.isEmpty then (none : Option (List MissingRow))
          else some rows) = some report := by simpa [Except.map] using h
      exact ifEmpty_some_ne_nil h2
  · intro data filt pThr vThr report h
    unfold check_large_step_changes at h
    exact ifEmpty_some_ne_nil h
  · intro data filt report h
    unfold check_required_columns at h
    by_cases hl : (reqColsAccum (filterScope data filt)).1.length =
        (reqColsAccum (filterScope data filt)).2.length
    · rw [if_pos hl] at h
      simp only [Except.ok.injEq] at h
      exact ifEmpty_some_ne_nil h
    · rw [if_neg hl] at h
      simp at h
  · intro data filt report h
    unfold check_missing_factor at h
    cases h' : factorAccum ⟨[], [], []⟩ (filterScope data filt) with
    | error e => rw [h'] at h; simp at h
    | ok acc =>
      rw [h'] at h
      have h2 : ((if acc.insts.length = acc.colFlags.length ∧
            acc.insts.length = acc.dataFlags.length then
            Except.ok (if (factorZip acc.insts acc.colFlags acc.dataFlags).isEmpty
              then (none : Option (List FactorRow))
              else some (factorZip acc.insts acc.colFlags acc.dataFlags))
          else Except.error "ValueError: All arrays must be of the same length") :
          Except String (Option (List FactorRow))) = Except.ok (some report) := h
      by_cases hl : acc.insts.length = acc.colFlags.length ∧
          acc.insts.length = acc.dataFlags.length
      · rw [if_pos hl] at h2
        simp only [Except.ok.injEq] at h2
        exact ifEmpty_some_ne_nil h2
      · rw [if_neg hl] at h2
        simp at h2
  · intro data filt res report h
    unfold check_missing_trading_days at h
    by_cases hs : (filterScope data filt).isEmpty
    · simp [hs] at h
    · simp only [hs, Bool.false_eq_true, if_false] at h
      cases hc : resolveCal (filterScope data filt) res with
      | none => rw [hc] at h; simp at h
      | some cal =>
        rw [hc] at h
        exact ifEmpty_some_ne_nil h

/-- A table with zero null cells in every column produces no row in
`check_missing_data`'s loop. -/
theorem missingRowFor_ok_none {num : Nat} {k : String} {df : DF}
    (hz : ∀ p ∈ df.cols, countNulls p.2 = 0) :
    missingRowFor num k df = .ok none := by
  unfold missingRowFor
  have hf : (isnullSums df).filter (fun p => num < p.2) = [] := by
    rw [List.filter_eq_nil_iff]
    intro a ha
    obtain ⟨q, hq, rfl⟩ := List.mem_map.mp ha
    simp [hz q hq]
  simp [hf]

/-- Over a scope of tables with zero null cells everywhere, the
`check_missing_data` loop accumulates no rows. -/
theorem missingRows_ok_nil {num : Nat} :
    ∀ scope : Dataset,
      (∀ k df, (k, df) ∈ scope → ∀ p ∈ df.cols, countNulls p.2 = 0) →
      missingRows num scope = .ok [] := by
  intro scope
  induction scope with
  | nil => intro _; rfl
  | cons hd tl ih =>
    intro hz
    obtain ⟨k, df⟩ := hd
    have h1 : missingRowFor num k df = .ok none :=
      missingRowFor_ok_none (hz k df (by simp))
    have h2 : missingRows num tl = .ok [] :=
      ih (fun k' df' hm => hz k' df' (List.mem_cons_of_mem _ hm))
    simp [missingRows, h1, h2]

/-- A row produced by `check_missing_data`'s loop body carries exactly the
instrument's five required-column null counts. -/
theorem missingRowFor_ok_some {num : Nat} {k : String} {df : DF} {r : MissingRow}
    (h : missingRowFor num k df = .ok (some r)) :
    r.instrument = k ∧
    lookupNulls df "open" = some r.openN ∧
    lookupNulls df "high" = some r.highN ∧
    lookupNulls df "low" = some r.lowN ∧
    lookupNulls df "close" = some r.closeN ∧
    lookupNulls df "volume" = some r.volumeN := by
  unfold missingRowFor at h
  by_cases he : ((isnullSums df).filter (fun p => num < p.2)).isEmpty
  · rw [if_pos he] at h
    simp at h
  · rw [if_neg he] at h
    split at h
    next o hn ln c v ho hh hl hc hv =>
      simp only [Except.ok.injEq, Option.some.injEq] at h
      subst h
      exact ⟨rfl, ho, hh, hl, hc, hv⟩
    next => simp at h

/-- Every row the `check_missing_data` loop accumulates comes from one table
of the scope via the loop body. -/
theorem missingRows_mem {num : Nat} :
    ∀ (scope : Dataset) (rows : List MissingRow),
      missingRows num scope = .ok rows →
      ∀ r ∈ rows, ∃ k df, (k, df) ∈ scope ∧ missingRowFor num k df = .ok (some r) := by
  intro scope
  induction scope with
  | nil =>
    intro rows h r hr
    simp only [missingRows, Except.ok.injEq] at h
    subst h
    simp at hr
  | cons hd tl ih =>
    intro rows h r hr
    obtain ⟨k, df⟩ := hd
    unfold missingRows at h
    cases hb : missingRowFor num k df with
    | error e => rw [hb] at h; simp at h
    | ok o =>
      rw [hb] at h
      cases o with
      | none =>
        obtain ⟨k', df', hm, hrow⟩ := ih rows h r hr
        exact ⟨k', df', List.mem_cons_of_mem _ hm, hrow⟩
      | some r0 =>
        cases ht : missingRows num tl with
        | error e => rw [ht] at h; simp [Except.map] at h
        | ok rs =>
          rw [ht] at h
          have hrows : rows = r0 :: rs := by simpa [Except.map] using h.symm
          subst hrows
          rcases List.mem_cons.mp hr with hr0 | hrs
          · exact ⟨k, df, by simp, by rw [hb, hr0]⟩
          · obtain ⟨k', df', hm, hrow⟩ := ih rs ht r hrs
            exact ⟨k', df', List.mem_cons_of_mem _ hm, hrow⟩

/-- C1 (counterexample): a table whose five required columns are present and
free of nulls, but whose `factor` column holds a null, makes
`check_missing_data` (tolerance 0) return a present report — not absent — with
all five counts zero: the check counts nulls over every column of the table,
not only the required five. -/
theorem c1_counterexample :
    lookupNulls dfFactorGap "open" = some 0 ∧
    lookupNulls dfFactorGap "high" = some 0 ∧
    lookupNulls dfFactorGap "low" = some 0 ∧
    lookupNulls dfFactorGap "close" = some 0 ∧
    lookupNulls dfFactorGap "volume" = some 0 ∧
    check_missing_data [("X", dfFactorGap)] none 0 ≠ .ok none ∧
    check_missing_data [("X", dfFactorGap)] none 0 =
      .ok (some [⟨"X", 0, 0, 0, 0, 0⟩]) := by
  refine ⟨rfl, rfl, rfl, rfl, rfl, ?_, rfl⟩
  intro hcontra
  rw [show check_missing_data [("X", dfFactorGap)] none 0 =
    .ok (some [⟨"X", 0, 0, 0, 0, 0⟩]) from rfl] at hcontra
  exact Option.noConfusion (Except.ok.inj hcontra)

/-- C1 (amended): for every dataset in which each instrument's table contains
all five required columns and has zero null cells in EVERY column (not only
the required five), `check_missing_data` with tolerance 0 returns absent; and
whenever it does return a report, each flagged instrument's row reports the
null counts of all five required columns, including zero counts. -/
theorem c1_missing_data_amended :
    (∀ (data : Dataset) (filt : Option (List String)),
        (∀ k df, (k, df) ∈ data →
          (∀ c ∈ requiredColumns, df.columns.contains c = true) ∧
          (∀ p ∈ df.cols, countNulls p.2 = 0)) →
        check_missing_data data filt 0 = .ok none) ∧
    (∀ (data : Dataset) (filt : Option (List String)) (num : Nat)
        (report : List MissingRow),
        check_missing_data data filt num = .ok (some report) →
        ∀ r ∈ report, ∃ df, (r.instrument, df) ∈ filterScope data filt ∧
          lookupNulls df "open" = some r.openN ∧
          lookupNulls df "high" = some r.highN ∧
          lookupNulls df "low" = some r.lowN ∧
          lookupNulls df "close" = some r.closeN ∧
          lookupNulls df "volume" = some r.volumeN) := by
  constructor
  · intro data filt hz
    have hmem : ∀ k df, (k, df) ∈ filterScope data filt → ∀ p ∈ df.cols,
        countNulls p.2 = 0 := by
      intro k df hm
      cases filt with
      | none => exact (hz k df hm).2
      | some l => exact (hz k df (List.mem_filter.mp hm).1).2
    rw [check_missing_data, missingRows_ok_nil (filterScope data filt) hmem]
    rfl
  · intro data filt num report h r hr
    unfold check_missing_data at h
    cases h' : missingRows num (filterScope data filt) with
    | error e => rw [h'] at h; simp [Except.map] at h
    | ok rows =>
      rw [h'] at h
      have h2 : (if rows.isEmpty then (none : Option (List MissingRow))
          else some rows) = some report := by simpa [Except.map] using h
      obtain ⟨heq, _⟩ := ifEmpty_eq_some h2
      subst heq
      obtain ⟨k, df, hm, hrow⟩ := missingRows_mem (filterScope data filt) report h' r hr
      obtain ⟨hinst, ho, hh, hl, hc, hv⟩ := missingRowFor_ok_some hrow
      exact ⟨df, hinst ▸ hm, ho, hh, hl, hc, hv⟩

/-- C1 (witness): the amended theorem applied to a concrete clean dataset and
to the concrete report of the factor-gap dataset. -/
theorem c1_missing_data_amended_witness :
    check_missing_data [("X", dfClean)] none 0 = .ok none ∧
    (∀ r ∈ [(⟨"X", 0, 0, 0, 0, 0⟩ : MissingRow)],
      ∃ df, (r.instrument, df) ∈ filterScope [("X", dfFactorGap)] none ∧
        lookupNulls df "open" = some r.openN ∧
        lookupNulls df "high" = some r.highN ∧
        lookupNulls df "low" = some r.lowN ∧
        lookupNulls df "close" = some r.closeN ∧
        lookupNulls df "volume" = some r.volumeN) :=
  ⟨c1_missing_data_amended.1 [("X", dfClean)] none (by
      intro k df hm
      simp only [List.mem_singleton, Prod.mk.injEq] at hm
      rw [hm.2]
      exact ⟨by decide, by decide⟩),
    c1_missing_data_amended.2 [("X", dfFactorGap)] none 0
      [⟨"X", 0, 0, 0, 0, 0⟩] (by rfl)⟩

/-- C9 (witness): the non-emptiness statement applied to the concrete report
of the factor-gap dataset. -/
theorem c9_reports_nonempty_witness :
    ([⟨"X", 0, 0, 0, 0, 0⟩] : List MissingRow) ≠ [] :=
  c9_reports_nonempty.1 [("X", dfFactorGap)] none 0 [⟨"X", 0, 0, 0, 0, 0⟩] (by rfl)

/-- Exceedance distributes over the float max of two step values. -/
theorem stepMax_exceeds (a b : StepVal) (t : ℚ) :
    (stepMax a b).exceeds t = (a.exceeds t || b.exceeds t) := by
  cases a with
  | inf => cases b <;> simp [stepMax, StepVal.exceeds]
  | fin p =>
    cases b with
    | inf => simp [stepMax, StepVal.exceeds]
    | fin q =>
      simp only [stepMax, StepVal.exceeds]
      rw [Bool.eq_iff_iff]
      simp [lt_max_iff]

/-- Exceedance of a fold of float maxes is exceedance somewhere. -/
theorem foldl_stepMax_exceeds (t : ℚ) :
    ∀ (l : List StepVal) (a : StepVal),
      (l.foldl stepMax a).exceeds t = (a.exceeds t || l.any (fun v => v.exceeds t)) := by
  intro l
  induction l with
  | nil => intro a; simp
  | cons x xs ih =>
    intro a
    simp only [List.foldl_cons, List.any_cons]
    rw [ih (stepMax a x), stepMax_exceeds]
    rw [Bool.or_assoc]

/-- Membership in `filterMap id` is membership of the wrapped value. -/
theorem mem_filterMap_id {w : StepVal} {l : List (Option StepVal)} :
    w ∈ l.filterMap id ↔ some w ∈ l := by
  constructor
  · intro h
    obtain ⟨a, ha, haw⟩ := List.mem_filterMap.mp h
    exact haw ▸ ha
  · intro h
    exact List.mem_filterMap.mpr ⟨some w, h, rfl⟩

/-- The series max strictly exceeds the threshold exactly when some non-NaN
entry of the series does. -/
theorem seriesMax_exceeds {l : List (Option StepVal)} {t : ℚ} :
    (∃ m, seriesMax l = some m ∧ m.exceeds t = true) ↔
      ∃ v, some v ∈ l ∧ v.exceeds t = true := by
  unfold seriesMax
  cases hfm : l.filterMap id with
  | nil =>
    constructor
    · rintro ⟨m, hm, _⟩; cases hm
    · rintro ⟨v, hv, _⟩
      have hmem : v ∈ l.filterMap id := mem_filterMap_id.mpr hv
      rw [hfm] at hmem
      cases hmem
  | cons v vs =>
    have hall : ∀ w : StepVal, w ∈ v :: vs ↔ some w ∈ l := by
      intro w
      rw [← hfm]
      exact mem_filterMap_id
    constructor
    · rintro ⟨m, hm, hex⟩
      have hm2 : vs.foldl stepMax v = m := by simpa using hm
      rw [← hm2, foldl_stepMax_exceeds] at hex
      rcases Bool.or_eq_true_iff.mp hex with hv | hany
      · exact ⟨v, (hall v).mp (by simp), hv⟩
      · obtain ⟨w, hw, hwex⟩ := List.any_eq_true.mp hany
        exact ⟨w, (hall w).mp (List.mem_cons_of_mem _ hw), hwex⟩
    · rintro ⟨w, hw, hwex⟩
      refine ⟨vs.foldl stepMax v, rfl, ?_⟩
      rw [foldl_stepMax_exceeds]
      rcases List.mem_cons.mp ((hall w).mpr hw) with rfl | hmem
      · simp [hwex]
      · exact Bool.or_eq_true_iff.mpr (Or.inr (List.any_eq_true.mpr ⟨w, hmem, hwex⟩))

/-- Inversion of the per-column row builder: a produced row records the
instrument, the column, the series max as `pct_change`, and the date at the
first exceeding position. -/
theorem stepRowForCol_eq_some {pThr vThr : ℚ} {k : String} {df : DF}
    {col : String} {r : StepRow} (h : stepRowForCol pThr vThr k df col = some r) :
    r.instrument = k ∧ r.colName = col ∧
    ∃ xs, df.getCol col = some xs ∧
      seriesMax (pctChanges xs) = some r.pctChange ∧
      r.pctChange.exceeds (thresholdFor pThr vThr col) = true ∧
      r.date = df.index.getD
        (firstExceedIdx (pctChanges xs) (thresholdFor pThr vThr col)) 0 := by
  unfold stepRowForCol at h
  cases hg : df.getCol col with
  | none => rw [hg] at h; cases h
  | some xs =>
    rw [hg] at h
    cases hm : seriesMax (pctChanges xs) with
    | none => simp only [hm] at h; cases h
    | some m =>
      simp only [hm] at h
      by_cases he : m.exceeds (thresholdFor pThr vThr col) = true
      · rw [if_pos he] at h
        obtain rfl : StepRow.mk k col
            (df.index.getD (firstExceedIdx (pctChanges xs)
              (thresholdFor pThr vThr col)) 0) m = r := by
          simpa using h
        exact ⟨rfl, rfl, xs, rfl, hm, he, rfl⟩
      · rw [if_neg he] at h
        cases h

/-- The per-column row builder produces a row whenever the series max strictly
exceeds the threshold. -/
theorem stepRowForCol_of_exceeds {pThr vThr : ℚ} {k : String} {df : DF}
    {col : String} {xs : List Cell} {m : StepVal}
    (hg : df.getCol col = some xs)
    (hm : seriesMax (pctChanges xs) = some m)
    (he : m.exceeds (thresholdFor pThr vThr col) = true) :
    stepRowForCol pThr vThr k df col =
      some ⟨k, col, df.index.getD
        (firstExceedIdx (pctChanges xs) (thresholdFor pThr vThr col)) 0, m⟩ := by
  unfold stepRowForCol
  rw [hg]
  simp only [hm]
  rw [if_pos he]

/-- C4: with any thresholds, for every instrument table and every present
required column, `check_large_step_changes` flags the column exactly when the
maximal absolute fractional change strictly exceeds the applicable threshold;
a maximum exactly equal to the threshold is never flagged, and any single
change strictly above the threshold forces a flag. -/
theorem c4_step_change_iff_threshold (pThr vThr : ℚ) (k : String) (df : DF)
    (col : String) (xs : List Cell)
    (hmem : col ∈ requiredColumns) (hcol : df.getCol col = some xs) :
    ((∃ r ∈ stepRowsFor pThr vThr k df, r.colName = col) ↔
      ∃ m, seriesMax (pctChanges xs) = some m ∧
        m.exceeds (thresholdFor pThr vThr col) = true) ∧
    (seriesMax (pctChanges xs) = some (.fin (thresholdFor pThr vThr col)) →
      ¬ ∃ r ∈ stepRowsFor pThr vThr k df, r.colName = col) ∧
    (∀ v : StepVal, some v ∈ pctChanges xs →
      v.exceeds (thresholdFor pThr vThr col) = true →
      ∃ r ∈ stepRowsFor pThr vThr k df, r.colName = col) := by
  have hiff : (∃ r ∈ stepRowsFor pThr vThr k df, r.colName = col) ↔
      ∃ m, seriesMax (pctChanges xs) = some m ∧
        m.exceeds (thresholdFor pThr vThr col) = true := by
    constructor
    · rintro ⟨r, hr, hrc⟩
      obtain ⟨col', hcolmem', hf⟩ := List.mem_filterMap.mp hr
      obtain ⟨_, hcn, ys, hg, hsm, he, _⟩ := stepRowForCol_eq_some hf
      rw [hrc] at hcn
      subst hcn
      rw [hcol] at hg
      obtain rfl : ys = xs := by simpa using hg.symm
      exact ⟨r.pctChange, hsm, he⟩
    · rintro ⟨m, hm, he⟩
      refine ⟨⟨k, col, df.index.getD
        (firstExceedIdx (pctChanges xs) (thresholdFor pThr vThr col)) 0, m⟩,
        List.mem_filterMap.mpr ⟨col, hmem, stepRowForCol_of_exceeds hcol hm he⟩, rfl⟩
  refine ⟨hiff, ?_, ?_⟩
  · intro hsm hflag
    obtain ⟨m, hm, he⟩ := hiff.mp hflag
    rw [hsm] at hm
    obtain rfl : StepVal.fin (thresholdFor pThr vThr col) = m := by simpa using hm
    simp [StepVal.exceeds] at he
  · intro v hv hve
    exact hiff.mpr (seriesMax_exceeds.mpr ⟨v, hv, hve⟩)

/-- C4 (witness): the boundary equivalence instantiated on scenario B's table
(close prices 100, 100, 160, price threshold 1/2). -/
theorem c4_step_change_iff_threshold_witness :
    (∃ r ∈ stepRowsFor (1/2) 3 "Y" dfScenB, r.colName = "close") ↔
      ∃ m, seriesMax (pctChanges [some 100, some 100, some 160]) = some m ∧
        m.exceeds (thresholdFor (1/2) 3 "close") = true :=
  (c4_step_change_iff_threshold (1/2) 3 "Y" dfScenB "close"
    [some 100, some 100, some 160] (by decide) (by rfl)).1

/-- `firstExceedIdx` really is the first exceeding position: when some entry
exceeds, it is in bounds, its entry exceeds, and no earlier entry does. -/
theorem firstExceedIdx_spec {ch : List (Option StepVal)} {t : ℚ}
    (hex : ∃ o ∈ ch, optExceeds t o = true) :
    firstExceedIdx ch t < ch.length ∧
    optExceeds t (ch.getD (firstExceedIdx ch t) none) = true ∧
    ∀ j, j < firstExceedIdx ch t → optExceeds t (ch.getD j none) = false := by
  unfold firstExceedIdx
  have hlt : ch.findIdx (optExceeds t) < ch.length :=
    List.findIdx_lt_length_of_exists hex
  have hgd : ∀ (j : Nat) (hj : j < ch.length), ch.getD j none = ch.get ⟨j, hj⟩ := by
    intro j hj
    rw [List.getD_eq_getElem?_getD, List.getElem?_eq_getElem hj]
    rfl
  refine ⟨hlt, ?_, ?_⟩
  · rw [hgd _ hlt]
    exact List.findIdx_getElem
  · intro j hj
    have hjlen : j < ch.length := Nat.lt_of_lt_of_le hj (List.findIdx_le_length _)
    rw [hgd _ hjlen]
    exact List.not_of_lt_findIdx hj

/-- C5: every row emitted by `check_large_step_changes` carries the maximum
absolute fractional change of its column and the date of the FIRST entry that
strictly exceeds the threshold (which need not be the position of the
maximum); and on scenario B (close prices 100, 100, 160 with price threshold
1/2) the check emits exactly one row, for close, with change 3/5 dated at the
third row. -/
theorem c5_step_change_row_date_and_max :
    (∀ (pThr vThr : ℚ) (k : String) (df : DF) (r : StepRow),
      r ∈ stepRowsFor pThr vThr k df →
      ∃ xs, df.getCol r.colName = some xs ∧
        seriesMax (pctChanges xs) = some r.pctChange ∧
        r.date = df.index.getD
          (firstExceedIdx (pctChanges xs) (thresholdFor pThr vThr r.colName)) 0 ∧
        firstExceedIdx (pctChanges xs) (thresholdFor pThr vThr r.colName) <
          (pctChanges xs).length ∧
        optExceeds (thresholdFor pThr vThr r.colName)
          ((pctChanges xs).getD (firstExceedIdx (pctChanges xs)
            (thresholdFor pThr vThr r.colName)) none) = true ∧
        (∀ j, j < firstExceedIdx (pctChanges xs) (thresholdFor pThr vThr r.colName) →
          optExceeds (thresholdFor pThr vThr r.colName)
            ((pctChanges xs).getD j none) = false)) ∧
    check_large_step_changes [("Y", dfScenB)] none (1/2) 3 =
      some [⟨"Y", "close", 20240103, .fin (3/5)⟩] := by
  constructor
  · intro pThr vThr k df r hr
    obtain ⟨col', _, hf⟩ := List.mem_filterMap.mp hr
    obtain ⟨_, hcn, xs, hg, hsm, he, hdate⟩ := stepRowForCol_eq_some hf
    subst hcn
    obtain ⟨v, hv, hvex⟩ := seriesMax_exceeds.mp ⟨r.pctChange, hsm, he⟩
    have hex : ∃ o ∈ pctChanges xs,
        optExceeds (thresholdFor pThr vThr r.colName) o = true :=
      ⟨some v, hv, by simpa [optExceeds] using hvex⟩
    obtain ⟨hlt, hat, hbefore⟩ := firstExceedIdx_spec hex
    exact ⟨xs, hg, hsm, hdate, hlt, hat, hbefore⟩
  · with_unfolding_all rfl

/-- C5 (witness): the row-content statement applied to scenario B's emitted
row. -/
theorem c5_step_change_row_date_and_max_witness :
    ∃ xs, dfScenB.getCol "close" = some xs ∧
      seriesMax (pctChanges xs) = some (.fin (3/5)) ∧
      (20240103 : Nat) = dfScenB.index.getD
        (firstExceedIdx (pctChanges xs) (thresholdFor (1/2) 3 "close")) 0 ∧
      firstExceedIdx (pctChanges xs) (thresholdFor (1/2) 3 "close") <
        (pctChanges xs).length ∧
      optExceeds (thresholdFor (1/2) 3 "close")
        ((pctChanges xs).getD (firstExceedIdx (pctChanges xs)
          (thresholdFor (1/2) 3 "close")) none) = true ∧
      (∀ j, j < firstExceedIdx (pctChanges xs) (thresholdFor (1/2) 3 "close") →
        optExceeds (thresholdFor (1/2) 3 "close")
          ((pctChanges xs).getD j none) = false) :=
  c5_step_change_row_date_and_max.1 (1/2) 3 "Y" dfScenB
    ⟨"Y", "close", 20240103, .fin (3/5)⟩ (by
      rw [show stepRowsFor (1/2) 3 "Y" dfScenB =
        [⟨"Y", "close", 20240103, .fin (3/5)⟩] from by with_unfolding_all rfl]
      exact List.mem_singleton.mpr rfl)

/-- Every row of the positional pairing takes its instrument from the
`instruments` list. -/
theorem factorZip_mem :
    ∀ (ks : List String) (cs ds : List Bool) (r : FactorRow),
      r ∈ factorZip ks cs ds → r.instrument ∈ ks := by
  intro ks
  induction ks with
  | nil => intro cs ds r h; cases cs <;> cases ds <;> simp [factorZip] at h
  | cons k ks ih =>
    intro cs ds r h
    cases cs with
    | nil => simp [factorZip] at h
    | cons c cs =>
      cases ds with
      | nil => simp [factorZip] at h
      | cons d ds =>
        rcases List.mem_cons.mp (by simpa [factorZip] using h) with rfl | hm
        · simp
        · exact List.mem_cons_of_mem _ (ih cs ds r hm)

/-- The loop body of `check_missing_factor` only ever appends non-excluded
keys to `result_dict["instruments"]`. -/
theorem factorStep_insts {acc : FactorAccum} {k : String} {df : DF}
    {acc2 : FactorAccum} (h : factorStep acc k df = .ok acc2)
    (hP : ∀ x ∈ acc.insts, excludedFactorKey x = false) :
    ∀ x ∈ acc2.insts, excludedFactorKey x = false := by
  unfold factorStep at h
  by_cases hek : excludedFactorKey k = true
  · rw [if_pos hek] at h
    obtain rfl : acc = acc2 := by simpa using h
    exact hP
  · have hek' : excludedFactorKey k = false := by simpa using hek
    rw [if_neg hek] at h
    set acc1 := (if df.columns.contains "factor" = true then acc
      else FactorAccum.mk (acc.insts ++ [k]) (acc.colFlags ++ [true])
        acc.dataFlags) with hacc1def
    have hacc1 : ∀ x ∈ acc1.insts, excludedFactorKey x = false := by
      rw [hacc1def]
      by_cases hc : df.columns.contains "factor" = true
      · rw [if_pos hc]; exact hP
      · rw [if_neg hc]
        intro x hx
        rcases List.mem_append.mp hx with h1 | h2
        · exact hP x h1
        · rw [List.mem_singleton.mp h2]; exact hek'
    cases hgc : df.getCol "factor" with
    | none => rw [hgc] at h; cases h
    | some xs =>
      rw [hgc] at h
      replace h : (if xs.all Option.isNone = true then
          (if acc1.insts.contains k = true then
            Except.ok (FactorAccum.mk acc1.insts acc1.colFlags
              (acc1.dataFlags ++ [true]))
          else
            Except.ok (FactorAccum.mk (acc1.insts ++ [k])
              (acc1.colFlags ++ [false]) (acc1.dataFlags ++ [true])))
        else Except.ok acc1) = Except.ok acc2 := h
      by_cases hall : xs.all Option.isNone = true
      · rw [if_pos hall] at h
        by_cases hin : acc1.insts.contains k = true
        · rw [if_pos hin] at h
          obtain rfl : FactorAccum.mk acc1.insts acc1.colFlags
              (acc1.dataFlags ++ [true]) = acc2 := by simpa using h
          exact hacc1
        · rw [if_neg hin] at h
          obtain rfl : FactorAccum.mk (acc1.insts ++ [k]) (acc1.colFlags ++ [false])
              (acc1.dataFlags ++ [true]) = acc2 := by simpa using h
          intro x hx
          rcases List.mem_append.mp hx with h1 | h2
          · exact hacc1 x h1
          · rw [List.mem_singleton.mp h2]; exact hek'
      · rw [if_neg hall] at h
        obtain rfl : acc1 = acc2 := by simpa using h
        exact hacc1

/-- The `check_missing_factor` loop preserves the non-excluded-keys invariant
of `result_dict["instruments"]`. -/
theorem factorAccum_insts :
    ∀ (scope : Dataset) (acc acc2 : FactorAccum),
      factorAccum acc scope = .ok acc2 →
      (∀ x ∈ acc.insts, excludedFactorKey x = false) →
      ∀ x ∈ acc2.insts, excludedFactorKey x = false := by
  intro scope
  induction scope with
  | nil =>
    intro acc acc2 h hP
    obtain rfl : acc = acc2 := by simpa [factorAccum] using h
    exact hP
  | cons hd tl ih =>
    intro acc acc2 h hP
    obtain ⟨k, df⟩ := hd
    unfold factorAccum at h
    cases hs : factorStep acc k df with
    | error e => rw [hs] at h; cases h
    | ok accMid =>
      rw [hs] at h
      exact ih accMid acc2 h (factorStep_insts hs hP)

/-- C6: an instrument whose key is one of the excluded identifiers `000300`,
`000903`, `000905` never contributes a row to a report of
`check_missing_factor`, whatever its factor column holds. -/
theorem c6_excluded_factor_keys_skipped (data : Dataset)
    (filt : Option (List String)) (k : String)
    (hk : k = "000300" ∨ k = "000903" ∨ k = "000905")
    (report : List FactorRow)
    (h : check_missing_factor data filt = .ok (some report)) :
    ∀ r ∈ report, r.instrument ≠ k := by
  intro r hr hrk
  have hex : excludedFactorKey k = true := by
    rcases hk with rfl | rfl | rfl <;> rfl
  unfold check_missing_factor at h
  cases h' : factorAccum ⟨[], [], []⟩ (filterScope data filt) with
  | error e => rw [h'] at h; cases h
  | ok acc =>
    rw [h'] at h
    have h2 : ((if acc.insts.length = acc.colFlags.length ∧
          acc.insts.length = acc.dataFlags.length then
          Except.ok (if (factorZip acc.insts acc.colFlags acc.dataFlags).isEmpty
            then (none : Option (List FactorRow))
            else some (factorZip acc.insts acc.colFlags acc.dataFlags))
        else Except.error "ValueError: All arrays must be of the same length") :
        Except String (Option (List FactorRow))) = Except.ok (some report) := h
    by_cases hl : acc.insts.length = acc.colFlags.length ∧
        acc.insts.length = acc.dataFlags.length
    · rw [if_pos hl] at h2
      simp only [Except.ok.injEq] at h2
      obtain ⟨heq, _⟩ := ifEmpty_eq_some h2
      subst heq
      have hmem : r.instrument ∈ acc.insts :=
        factorZip_mem acc.insts acc.colFlags acc.dataFlags r hr
      have hninv := factorAccum_insts (filterScope data filt) ⟨[], [], []⟩ acc h'
        (by intro x hx; cases hx) r.instrument hmem
      rw [hrk, hex] at hninv
      cases hninv
    · rw [if_neg hl] at h2
      cases h2

/-- C6 (witness): the exclusion statement applied to a dataset holding the
index `000300` (with no factor column — it is skipped before the unguarded
access) and a flagged ordinary instrument. -/
theorem c6_excluded_factor_keys_skipped_witness :
    (FactorRow.mk "AAA" false true).instrument ≠ "000300" :=
  c6_excluded_factor_keys_skipped
    [("000300", dfOnlyClose), ("AAA", dfFactorAllNull)] none "000300"
    (Or.inl rfl) [⟨"AAA", false, true⟩] (by rfl)
    ⟨"AAA", false, true⟩ (List.mem_singleton.mpr rfl)

/-- C7: with the calendar resource unavailable, `check_missing_trading_days`
does not raise: on an empty scope it returns absent; when no table contributes
any date it returns absent; and otherwise it behaves exactly as if the
calendar were the sorted union of all dates of the tables in the (possibly
filtered) scope. -/
theorem c7_calendar_fallback :
    (∀ (data : Dataset) (filt : Option (List String)),
        filterScope data filt = [] →
        check_missing_trading_days data filt none = none) ∧
    (∀ (data : Dataset) (filt : Option (List String)),
        (∀ k df, (k, df) ∈ filterScope data filt → df.dates = []) →
        check_missing_trading_days data filt none = none) ∧
    (∀ (data : Dataset) (filt : Option (List String)),
        filterScope data filt ≠ [] →
        unionDates (filterScope data filt) ≠ [] →
        resolveCal (filterScope data filt) none =
          some (unionDates (filterScope data filt)) ∧
        check_missing_trading_days data filt none =
          check_missing_trading_days data filt
            (some (unionDates (filterScope data filt)))) := by
  refine ⟨?_, ?_, ?_⟩
  · intro data filt h
    unfold check_missing_trading_days
    simp [h]
  · intro data filt h
    have hu : unionDates (filterScope data filt) = [] := by
      unfold unionDates
      have hfm : (filterScope data filt).flatMap (fun p => p.2.dates) = [] := by
        rw [List.flatMap_eq_nil_iff]
        intro p hp
        exact h p.1 p.2 hp
      rw [hfm]
      rfl
    unfold check_missing_trading_days
    by_cases hs : (filterScope data filt).isEmpty
    · simp [hs]
    · simp only [hs, Bool.false_eq_true, if_false]
      have : resolveCal (filterScope data filt) none = none := by
        unfold resolveCal
        simp [hu]
      rw [this]
  · intro data filt hs hu
    have hcal : resolveCal (filterScope data filt) none =
        some (unionDates (filterScope data filt)) := by
      unfold resolveCal
      simp [hu]
    refine ⟨hcal, ?_⟩
    unfold check_missing_trading_days
    simp only [hcal]
    rfl

/-- C7 (witness): the fallback statement applied to the empty dataset, to a
dataset with a dateless table, and to scenario D's dataset. -/
theorem c7_calendar_fallback_witness :
    check_missing_trading_days [] none none = none ∧
    check_missing_trading_days [("E", dfEmptyIdx)] none none = none ∧
    (resolveCal (filterScope [("W", dfScenD)] none) none =
      some (unionDates (filterScope [("W", dfScenD)] none)) ∧
     check_missing_trading_days [("W", dfScenD)] none none =
      check_missing_trading_days [("W", dfScenD)] none
        (some (unionDates (filterScope [("W", dfScenD)] none)))) :=
  ⟨c7_calendar_fallback.1 [] none rfl,
   c7_calendar_fallback.2.1 [("E", dfEmptyIdx)] none (by
     intro k df hm
     simp only [filterScope, List.mem_singleton, Prod.mk.injEq] at hm
     rw [hm.2]
     rfl),
   c7_calendar_fallback.2.2 [("W", dfScenD)] none (by decide) (by decide)⟩

/-- Inversion of the per-instrument row builder of
`check_missing_trading_days`. -/
theorem tradingRowFor_eq_some {cal : List Nat} {k : String} {df : DF}
    {r : TradeRow} (h : tradingRowFor cal k df = some r) :
    r.instrument = k ∧ missingDatesOf cal df ≠ [] ∧
    r.missingTradingDays =
      ((sortedDates (missingDatesOf cal df)).take 5).map isoFormat ∧
    r.totalMissingDays = (missingDatesOf cal df).length ∧
    r.covPct = formatPct2 (coveragePct cal.length (missingDatesOf cal df).length) := by
  unfold tradingRowFor at h
  by_cases he : (missingDatesOf cal df).isEmpty
  · rw [if_pos he] at h; cases h
  · rw [if_neg he] at h
    obtain rfl : TradeRow.mk k
        (((sortedDates (missingDatesOf cal df)).take 5).map isoFormat)
        (missingDatesOf cal df).length
        (formatPct2 (coveragePct cal.length (missingDatesOf cal df).length)) = r := by
      simpa using h
    exact ⟨rfl, fun hc => he (by simp [hc]), rfl, rfl, rfl⟩

/-- The number of distinct missing dates never exceeds the raw calendar
length. -/
theorem missingDatesOf_length_le (cal : List Nat) (df : DF) :
    (missingDatesOf cal df).length ≤ cal.length :=
  le_trans (List.length_filter_le _ _) (List.Sublist.length_le (List.dedup_sublist cal))

/-- The coverage quantity lies in [0, 100] whenever the missing count is at
most the calendar length and the calendar is non-trivial. -/
theorem coveragePct_bounds {cl ml : Nat} (h0 : 0 < cl) (hm : ml ≤ cl) :
    0 ≤ coveragePct cl ml ∧ coveragePct cl ml ≤ 100 := by
  unfold coveragePct
  have hc : (0 : ℚ) < cl := by exact_mod_cast h0
  have hmc : (ml : ℚ) ≤ cl := by exact_mod_cast hm
  constructor
  · apply mul_nonneg _ (by norm_num)
    exact div_nonneg (by linarith) (le_of_lt hc)
  · have h1 : ((cl : ℚ) - ml) / cl ≤ 1 := by
      rw [div_le_one hc]
      linarith
    calc ((cl : ℚ) - ml) / cl * 100 ≤ 1 * 100 :=
          mul_le_mul_of_nonneg_right h1 (by norm_num)
      _ = 100 := by norm_num

/-- C8: every row `check_missing_trading_days` emits shows at most the first
5 missing dates in ascending order (ISO-formatted), the total count of the
missing dates, and the coverage quantity formatted to two decimals, and that
quantity lies in [0, 100]; moreover on a non-empty calendar fully covered by
an instrument the coverage quantity is exactly 100 and no row is emitted. -/
theorem c8_trading_row_content :
    (∀ (data : Dataset) (filt : Option (List String)) (res : Option (List Nat))
        (report : List TradeRow),
        check_missing_trading_days data filt res = some report →
        ∀ r ∈ report, ∃ cal df,
          resolveCal (filterScope data filt) res = some cal ∧
          (r.instrument, df) ∈ filterScope data filt ∧
          r.missingTradingDays =
            ((sortedDates (missingDatesOf cal df)).take 5).map isoFormat ∧
          List.Sorted (· ≤ ·) (sortedDates (missingDatesOf cal df)) ∧
          r.missingTradingDays.length ≤ 5 ∧
          r.totalMissingDays = (missingDatesOf cal df).length ∧
          r.covPct = formatPct2
            (coveragePct cal.length (missingDatesOf cal df).length) ∧
          0 ≤ coveragePct cal.length (missingDatesOf cal df).length ∧
          coveragePct cal.length (missingDatesOf cal df).length ≤ 100) ∧
    (∀ (cal : List Nat) (k : String) (df : DF),
        cal ≠ [] → (∀ d ∈ cal, df.dates.contains d = true) →
        coveragePct cal.length (missingDatesOf cal df).length = 100 ∧
        tradingRowFor cal k df = none) := by
  constructor
  · intro data filt res report h r hr
    unfold check_missing_trading_days at h
    by_cases hs : (filterScope data filt).isEmpty
    · simp [hs] at h
    · simp only [hs, Bool.false_eq_true, if_false] at h
      cases hc : resolveCal (filterScope data filt) res with
      | none => rw [hc] at h; simp at h
      | some cal =>
        rw [hc] at h
        obtain ⟨heq, _⟩ := ifEmpty_eq_some h
        subst heq
        obtain ⟨p, hp, hrow⟩ := List.mem_filterMap.mp hr
        obtain ⟨hinst, hne, hmtd, htot, hcov⟩ := tradingRowFor_eq_some hrow
        have hml : (missingDatesOf cal p.2).length ≤ cal.length :=
          missingDatesOf_length_le cal p.2
        have h0 : 0 < cal.length := by
          have h1 : 0 < (missingDatesOf cal p.2).length :=
            List.length_pos.mpr hne
          exact lt_of_lt_of_le h1 hml
        obtain ⟨hb0, hb100⟩ := coveragePct_bounds h0 hml
        refine ⟨cal, p.2, rfl, ?_, hmtd, ?_, ?_, htot, hcov, hb0, hb100⟩
        · rw [hinst]
          exact hp
        · exact List.sorted_insertionSort _ _
        · rw [hmtd, List.length_map]
          exact le_trans (List.length_take_le _ _) (le_refl 5)
  · intro cal k df hne hcover
    have hc : (0 : ℚ) < cal.length := by
      exact_mod_cast List.length_pos.mpr hne
    have hmd : missingDatesOf cal df = [] := by
      unfold missingDatesOf
      rw [List.filter_eq_nil_iff]
      intro d hd
      have hmem := hcover d (List.mem_dedup.mp hd)
      obtain ⟨b, hb, hbeq⟩ := List.contains_iff_exists_mem_beq.mp hmem
      have : d = b := by simpa using hbeq
      simp [this ▸ hb]
    constructor
    · rw [hmd]
      unfold coveragePct
      rw [List.length_nil, Nat.cast_zero, sub_zero, div_self (ne_of_gt hc), one_mul]
    · unfold tradingRowFor
      rw [if_pos (by simp [hmd])]

/-- C8 (witness): the row-content statement applied to scenario D (calendar
of ten days, instrument with eight), and the superset statement applied to a
fully covered instrument. -/
theorem c8_trading_row_content_witness :
    (∃ cal df,
      resolveCal (filterScope [("W", dfScenD)] none) (some calScenD) = some cal ∧
      (("W" : String), df) ∈ filterScope [("W", dfScenD)] none ∧
      (["2024-01-09", "2024-01-10"] : List String) =
        ((sortedDates (missingDatesOf cal df)).take 5).map isoFormat ∧
      List.Sorted (· ≤ ·) (sortedDates (missingDatesOf cal df)) ∧
      (["2024-01-09", "2024-01-10"] : List String).length ≤ 5 ∧
      (2 : Nat) = (missingDatesOf cal df).length ∧
      ("80.00%" : String) = formatPct2
        (coveragePct cal.length (missingDatesOf cal df).length) ∧
      0 ≤ coveragePct cal.length (missingDatesOf cal df).length ∧
      coveragePct cal.length (missingDatesOf cal df).length ≤ 100) ∧
    (coveragePct calScenD.length (missingDatesOf calScenD dfScenDFull).length = 100 ∧
      tradingRowFor calScenD "W" dfScenDFull = none) :=
  ⟨c8_trading_row_content.1 [("W", dfScenD)] none (some calScenD)
      [⟨"W", ["2024-01-09", "2024-01-10"], 2, "80.00%"⟩]
      (by with_unfolding_all rfl)
      ⟨"W", ["2024-01-09", "2024-01-10"], 2, "80.00%"⟩
      (List.mem_singleton.mpr rfl),
   c8_trading_row_content.2 calScenD "W" dfScenDFull (by decide) (by decide)⟩
